import Mathlib

/-!
A shallow embedding of the ARTRS acoustic ray tracer (`Geometry.py`,
`Scene.py`).  Python floats are idealized as real numbers, numpy float32
arrays as `List ℝ`.  Runtime failures the tracer can actually exhibit
(`ZeroDivisionError` in the chunk arithmetic, numpy broadcast `ValueError`
in the slice addition) and IEEE non-finite results (NaN/Inf produced by the
unguarded division by `np.max`) are modelled with `Option`.
-/

namespace ARTRS

/-- Scene.py: `PROP_SPEED = 343.0`, speed of sound in m/s. -/
noncomputable def PROP_SPEED : ℝ := 343

/-- Scene.py: `REFL_COEFF = 1-0.03`. -/
noncomputable def REFL_COEFF : ℝ := 1 - 3 / 100

/-- Scene.py: `MAX_PATH_LEN = 50`. -/
noncomputable def MAX_PATH_LEN : ℝ := 50

/-- Scene.py: `ATM_ATTEN = 0.6e-3`. -/
noncomputable def ATM_ATTEN : ℝ := 6 / 10000

/-- Scene.py: `EULER = np.exp(1)`. -/
noncomputable def EULER : ℝ := Real.exp 1

/-- Python's built-in `round` (round half to even), as used by
`int(round(x))` in `Source.Delay` and in the tracer's delay computation.
Mathlib's `round` sends halves up, so the half case is redirected to the even
neighbour: for `x = n + 1/2`, `2 * round (x / 2)` is the even one of `n`,
`n + 1`. -/
def pyRound {α : Type} [LinearOrderedField α] [FloorRing α] [DecidableEq α]
    (x : α) : ℤ :=
  if Int.fract x = 1 / 2 then 2 * round (x / 2) else round x

/-- Python sequence slicing `l[:stop]` for an `int` stop, including the
negative-stop convention: `l[:-k]` drops the last `k` elements, clamped at
the ends. -/
def pySliceTo {α : Type} (l : List α) (stop : ℤ) : List α :=
  if stop < 0 then l.take (l.length - stop.natAbs) else l.take stop.toNat

/-- Geometry.py `Vec`: three float coordinates.  The tracer layer works with
plain coordinate records; the dynamic `Vec`/`NullVec` class behaviour is
modelled separately (`PyV`) for the claims about the null vector. -/
structure V3 where
  x : ℝ
  y : ℝ
  z : ℝ

/-- Geometry.py `NullVec`, as the tracer observes it in vector slots: in
every operation the tracer performs on a default ray origin or a sentinel
intersection point (indexing, `+`, `-`, `dot`), `NullVec` indexes as 0 and
so behaves exactly like the zero vector; this layer represents it by
`⟨0,0,0⟩`. -/
def nullV3 : V3 := ⟨0, 0, 0⟩

instance : Inhabited V3 := ⟨nullV3⟩

/-- Geometry.py `Vec.__add__`. -/
instance : Add V3 := ⟨fun a b => ⟨a.x + b.x, a.y + b.y, a.z + b.z⟩⟩

/-- Geometry.py `Vec.__sub__`. -/
instance : Sub V3 := ⟨fun a b => ⟨a.x - b.x, a.y - b.y, a.z - b.z⟩⟩

/-- Geometry.py `Vec.__mul__`: `Vec(*[constant*coord for coord in coords])`. -/
instance : SMul ℝ V3 := ⟨fun c a => ⟨c * a.x, c * a.y, c * a.z⟩⟩

/-- Geometry.py `Vec.dot`. -/
def V3.dot (a b : V3) : ℝ := a.x * b.x + a.y * b.y + a.z * b.z

/-- Geometry.py `Vec.cross`. -/
def V3.cross (a b : V3) : V3 :=
  ⟨a.y * b.z - a.z * b.y, a.z * b.x - a.x * b.z, a.x * b.y - a.y * b.x⟩

/-- Geometry.py `Vec.mag`: `(self.dot(self))**0.5`; the argument is a sum of
squares, so float `** 0.5` is the square root. -/
noncomputable def V3.mag (a : V3) : ℝ := Real.sqrt (a.dot a)

/-- Geometry.py `Vec.unit`: each coordinate divided by the magnitude. -/
noncomputable def V3.unit (a : V3) : V3 := ⟨a.x / a.mag, a.y / a.mag, a.z / a.mag⟩

/-- Geometry.py `Tri`: three vertices, counter-clockwise from outside. -/
structure TriT where
  v0 : V3
  v1 : V3
  v2 : V3

/-- Geometry.py `Tri.norm`: unit vector of `(v1-v0) × (v2-v0)`. -/
noncomputable def TriT.normV (t : TriT) : V3 :=
  ((t.v1 - t.v0).cross (t.v2 - t.v0)).unit

/-- Determinant of the 3×3 matrix with columns `c0, c1, c2`, used to
translate the linear solve `np.linalg.inv(tempMat).dot(tempVec)` of
`Tri.Intersect` through Cramer's rule. -/
def det3 (c0 c1 c2 : V3) : ℝ :=
  c0.x * (c1.y * c2.z - c1.z * c2.y)
    - c1.x * (c0.y * c2.z - c0.z * c2.y)
    + c2.x * (c0.y * c1.z - c0.z * c1.y)

/-- Scene.py `Ray`: unit direction, origin, cumulative distance travelled
before reaching the origin. -/
structure RayT where
  direction : V3
  origin : V3
  distance : ℝ

/-- Scene.py `Ray.__init__`: normalizes the direction via `Vec.unit`. -/
noncomputable def mkRay (direction origin : V3) (distance : ℝ) : RayT :=
  ⟨direction.unit, origin, distance⟩

/-- Geometry.py `Tri.Intersect`.  `tempMat` has columns `e1, e2,
ray.direction` and the solve is `tempVec = inv(tempMat) @ (v0 - ray.origin)`,
giving `(beta, gamma, distance)`.  The inverse is written through Cramer's
rule, which coincides with `np.linalg.inv` whenever the matrix is
non-singular; `np.linalg.inv` raising `LinAlgError` on a singular matrix is
the `det = 0` branch, which returns `(False, 0, NullVec())`. -/
noncomputable def triIntersect (t : TriT) (ray : RayT) : Bool × ℝ × V3 :=
  let e1 := t.v1 - t.v0
  let e2 := t.v2 - t.v0
  let rhs := t.v0 - ray.origin
  let d := det3 e1 e2 ray.direction
  if d = 0 then (false, 0, nullV3)
  else
    let beta := det3 rhs e2 ray.direction / d
    let gamma := det3 e1 rhs ray.direction / d
    let dist := det3 e1 e2 rhs / d
    (decide (gamma + beta < 1), dist, ray.origin + dist • ray.direction)

/-- Geometry.py `Tri.Reflection`: `direction - norm*(2*norm.dot(direction))`. -/
noncomputable def triReflect (t : TriT) (direction : V3) : V3 :=
  direction - (2 * (t.normV.dot direction)) • t.normV

/-- Scene.py `Source.__init__`: `self.radius = 0.05`. -/
noncomputable def srcRadius : ℝ := 5 / 100

/-- Scene.py `Source`: location, sample rate, signal samples (the radius is
the fixed `srcRadius`). -/
structure Src where
  location : V3
  sampRate : ℕ
  signal : List ℝ

/-- `np.max` of a float array, as used on the source signal and on each
accumulated channel.  numpy raises on an empty array; every use here is on a
nonempty array and the `getD 0` default is never exercised. -/
noncomputable def npMax (l : List ℝ) : ℝ := l.max?.getD 0

/-- Scene.py `Source.__init__` (data-tuple path): `self.signal /=
np.max(self.signal)` — division by the *signed* maximum of the samples, not
by the peak absolute value. -/
noncomputable def mkSourceSignal (raw : List ℝ) : List ℝ :=
  raw.map (fun s => s / npMax raw)

/-- Scene.py `Source.Delay`: prepend `int(round(sampRate*seconds))` zero
samples (`np.pad(signal, pad_width=[sampDelay, 0])`).  For the nonnegative
delays the claims quantify over, the pad count is the nonnegative
`pyRound` value; numpy rejects negative pad widths. -/
noncomputable def srcDelay (s : Src) (seconds : ℝ) : Src :=
  { s with
    signal :=
      List.replicate (pyRound ((s.sampRate : ℝ) * seconds)).toNat 0 ++ s.signal }

/-- Scene.py `Source.Intersect`: quadratic ray/sphere test.  On a positive
discriminant the smaller root is used unless negative, in which case the
larger root is used; `discriminant**0.5` on a positive float is the square
root. -/
noncomputable def srcIntersect (s : Src) (ray : RayT) : Bool × ℝ × V3 :=
  let tempVec := ray.origin - s.location
  let quadA := ray.direction.dot ray.direction
  let quadB := ray.direction.dot tempVec
  let quadC := tempVec.dot tempVec - srcRadius ^ 2
  let disc := quadB ^ 2 - quadA * quadC
  if 0 < disc then
    let root := Real.sqrt disc
    let dist0 := (-quadB - root) / quadA
    let dist := if dist0 < 0 then (-quadB + root) / quadA else dist0
    (true, dist, ray.origin + dist • ray.direction)
  else if disc = 0 then
    (true, -quadB / quadA, ray.origin + (-quadB / quadA) • ray.direction)
  else (false, 0, nullV3)

/-- Scene.py `Receiver`: a located, named point sensor (the name plays no
semantic role in tracing). -/
structure Recv where
  location : V3

/-- Scene.py `Scene`: sources, triangles, receivers and the incrementally
maintained sample rate. -/
structure SceneT where
  sources : List Src
  tris : List TriT
  receivers : List Recv
  sampRate : ℕ

/-- Scene.py `Scene.__init__`: empty lists and `sampRate = 0`. -/
def emptyScene : SceneT := ⟨[], [], [], 0⟩

/-- Scene.py `Scene.addSource`: append and fold in the max sample rate. -/
def SceneT.addSource (sc : SceneT) (s : Src) : SceneT :=
  { sc with
    sources := sc.sources ++ [s]
    sampRate := max sc.sampRate s.sampRate }

/-- Scene.py `Scene.addSources`: the same update per element of the list. -/
def SceneT.addSources (sc : SceneT) (l : List Src) : SceneT :=
  l.foldl SceneT.addSource sc

/-- Scene.py `Scene.addSurface`. -/
def SceneT.addSurface (sc : SceneT) (t : TriT) : SceneT :=
  { sc with tris := sc.tris ++ [t] }

/-- Scene.py `Scene.addSurfaces`. -/
def SceneT.addSurfaces (sc : SceneT) (l : List TriT) : SceneT :=
  l.foldl SceneT.addSurface sc

/-- Scene.py `Scene.addReceiver`. -/
def SceneT.addReceiver (sc : SceneT) (r : Recv) : SceneT :=
  { sc with receivers := sc.receivers ++ [r] }

/-- Scene.py `Scene.addReceivers`. -/
def SceneT.addReceivers (sc : SceneT) (l : List Recv) : SceneT :=
  l.foldl SceneT.addReceiver sc

/-- Scene.py `Scene.clear`: resets `sources` and `receivers`; `tris` — and
also `sampRate` — are left untouched. -/
def SceneT.clear (sc : SceneT) : SceneT :=
  { sc with sources := [], receivers := [] }

/-- The attenuation factor `(EULER**(-ATM_ATTEN*d))**0.5` from `Ray.Trace`
(both the direct-contribution gain and the per-reflection attenuation use
it). -/
noncomputable def attenGain (d : ℝ) : ℝ :=
  (EULER ^ (-ATM_ATTEN * d)) ^ ((1 : ℝ) / 2)

/-- `delaySamples = int(round((srcDist / PROP_SPEED) * sampRate))` from the
tracer's direct step; `srcDist > 0` holds at every use, so the value is a
natural number. -/
noncomputable def delaySamples (sampRate : ℕ) (srcDist : ℝ) : ℕ :=
  (pyRound (srcDist / PROP_SPEED * (sampRate : ℝ))).toNat

/-- numpy in-place slice addition `buf[start:stop] += vals` on 1-D float
arrays, with Python slice clamping and numpy broadcasting: the addition
succeeds iff `vals` has exactly the slice's length, or length 1 (broadcast
over the slice); any other mismatch raises a broadcast `ValueError`,
modelled as `none`. -/
def npAddSlice (buf : List ℝ) (start stop : ℕ) (vals : List ℝ) :
    Option (List ℝ) :=
  let s := min start buf.length
  let e := max s (min stop buf.length)
  if vals.length = e - s then
    some (buf.take s
      ++ List.zipWith (fun b v => b + v) ((buf.drop s).take (e - s)) vals
      ++ buf.drop e)
  else if vals.length = 1 then
    some (buf.take s
      ++ ((buf.drop s).take (e - s)).map (fun b => b + vals.head!)
      ++ buf.drop e)
  else none

/-- One iteration of the direct-path source loop in `Ray.Trace`: intersect
the ray with the source sphere and, when it hits at a strictly positive
distance within the remaining `MAX_PATH_LEN` budget, add the delayed,
attenuated signal slice into the buffer:
`rayData[delaySamples : min(delaySamples+srcLen, numSamples)] +=
gain * signal[:numSamples-delaySamples]`. -/
noncomputable def directContribution (src : Src) (ray : RayT)
    (numSamples : ℕ) (rayData : List ℝ) : Option (List ℝ) :=
  let r := srcIntersect src ray
  let srcDist := r.2.1
  if r.1 = true ∧ 0 < srcDist ∧ srcDist + ray.distance < MAX_PATH_LEN then
    let totDist := srcDist + ray.distance
    let delay := delaySamples src.sampRate srcDist
    let signal := (pySliceTo src.signal ((numSamples : ℤ) - (delay : ℤ))).map
      (fun v => attenGain totDist * v)
    npAddSlice rayData delay (min (delay + src.signal.length) numSamples) signal
  else some rayData

/-- The whole direct-path loop of `Ray.Trace` over the scene's sources. -/
noncomputable def directStep (sources : List Src) (ray : RayT)
    (numSamples : ℕ) (rayData : List ℝ) : Option (List ℝ) :=
  sources.foldlM (fun buf src => directContribution src ray numSamples buf)
    rayData

/-- The nearest-hit scan of `Ray.Trace`: fold over the triangles keeping the
hit with the smallest strictly positive distance.  `nearDistance` starts at
float `inf` (no hit recorded yet), modelled as `none`; the branchless
`updateDistance = int(nearDistance > distance and distance > 0)` update is
the conditional below. -/
noncomputable def findNearest (tris : List TriT) (ray : RayT) :
    Option (ℝ × V3 × TriT) :=
  tris.foldl
    (fun near thing =>
      let r := triIntersect thing ray
      if r.1 = true then
        match near with
        | none => if 0 < r.2.1 then some (r.2.1, r.2.2, thing) else none
        | some (nd, pt, th) =>
          if r.2.1 < nd ∧ 0 < r.2.1 then some (r.2.1, r.2.2, thing)
          else some (nd, pt, th)
      else near)
    none

/-- Scene.py `Ray.Trace`.  The Python recursion carries no structural bound
(it terminates only through the `MAX_PATH_LEN` cutoff, and not even then if
reflection distances shrink fast enough), so the embedding takes an explicit
fuel parameter; exhausting the fuel answers `none`, which no theorem below
exercises.  Crucially, the caller's `attenuation` is multiplied into the
*whole shared buffer* after the recursive call returns, exactly as
`rayData *= attenuation` does in the source. -/
noncomputable def rayTrace (scene : SceneT) :
    ℕ → RayT → ℕ → List ℝ → ℝ → Option (List ℝ)
  | fuel, ray, numSamples, rayData, attenuation => do
    let buf1 ← directStep scene.sources ray numSamples rayData
    let near := findNearest scene.tris ray
    let buf2 ← (match near with
      | some (nearDistance, nearIntersect, nearThing) =>
        if nearDistance + ray.distance < MAX_PATH_LEN then
          match fuel with
          | 0 => none
          | fuel' + 1 =>
            let direction := triReflect nearThing ray.direction
            let totDist := nearDistance + ray.distance
            let reflectedRay := mkRay direction nearIntersect
              (ray.distance + nearDistance)
            let totAtten := REFL_COEFF * attenGain totDist
            rayTrace scene fuel' reflectedRay numSamples buf1 totAtten
        else some buf1
      | none => some buf1)
    some (if attenuation = 1 then buf2
      else buf2.map (fun v => attenuation * v))

/-- The spherical direction grid of `Scene.Trace`: polar index in the outer
loop, azimuth index in the inner loop. -/
noncomputable def directionsGrid (numRaysAzimuth numRaysPolar : ℕ) : List V3 :=
  (List.range numRaysPolar).flatMap (fun polIndex =>
    (List.range numRaysAzimuth).map (fun azIndex =>
      let polarAngle := (polIndex : ℝ) * Real.pi / numRaysPolar
      let azimuthAngle := (azIndex : ℝ) * 2 * Real.pi / numRaysAzimuth
      let cylCoord := Real.sin polarAngle
      ⟨cylCoord * Real.cos azimuthAngle, cylCoord * Real.sin azimuthAngle,
        Real.cos polarAngle⟩))

/-- Scene.py `traceDirection`: a primary ray from the receiver's location
with cumulative distance 0, a fresh zero buffer and attenuation 1. -/
noncomputable def traceDirection (fuel : ℕ) (direction : V3) (scene : SceneT)
    (receiver : Recv) (numSamples : ℕ) : Option (List ℝ) :=
  rayTrace scene fuel (mkRay direction receiver.location 0) numSamples
    (List.replicate numSamples 0) 1

/-- `numChunks = totalBytes//memChunk + 1` with
`totalBytes = 4*totalRays*maxSampLength` (float32 = 4 bytes). -/
def numChunksOf (totalRays maxSampLength memChunk : ℕ) : ℕ :=
  4 * totalRays * maxSampLength / memChunk + 1

/-- `chunkSize = totalRays//(numChunks-1)`.  When `numChunks = 1` the Python
expression divides by zero; the caller models that `ZeroDivisionError`. -/
def chunkSizeOf (totalRays numChunks : ℕ) : ℕ := totalRays / (numChunks - 1)

/-- The work-list slice `args[chunk*chunkSize : (chunk+1)*chunkSize]`, as
direction indices below `totalRays`. -/
def chunkSlice (totalRays chunkSize chunk : ℕ) : List ℕ :=
  ((List.range totalRays).drop (chunk * chunkSize)).take chunkSize

/-- All direction indices dispatched by the chunk loop of `Scene.Trace`, in
dispatch order: the concatenation of the `numChunks` slices. -/
def dispatchedIndices (totalRays numChunks chunkSize : ℕ) : List ℕ :=
  (List.range numChunks).flatMap (chunkSlice totalRays chunkSize)

/-- IEEE float division as observed through the unguarded per-channel
normalization: dividing by zero never yields an ordinary finite float
(`0/0` is NaN, `x/0` is ±Inf), modelled as `none`. -/
noncomputable def fdiv (x m : ℝ) : Option ℝ := if m = 0 then none else some (x / m)

/-- The per-channel finalization `data[channel] /= np.max(data[channel])` of
`Scene.Trace`.  The source has no zero guard, and `np.max` is the signed
maximum, not the peak absolute value. -/
noncomputable def finalizeChannel (acc : List ℝ) : List (Option ℝ) :=
  acc.map (fun v => fdiv v (npMax acc))

/-- Scene.py `Scene.Trace`, as its sequential denotation: the worker pool is
a parallel map whose per-ray results are reduced into the channel buffer in
dispatch order (`data[channel][:len(rayData)] += rayData`), channel after
channel.  When `totalBytes//memChunk + 1 = 1`, the Python
`totalRays//(numChunks-1)` raises `ZeroDivisionError`, modelled as `none`. -/
noncomputable def sceneTrace (fuel : ℕ) (sc : SceneT)
    (numRaysAzimuth numRaysPolar duration memChunk : ℕ) :
    Option (List (List (Option ℝ))) := do
  let maxSampLength := sc.sampRate * duration
  let dirs := directionsGrid numRaysAzimuth numRaysPolar
  let totalRays := dirs.length
  let numChunks := numChunksOf totalRays maxSampLength memChunk
  if numChunks = 1 then none
  else
    let chunkSize := chunkSizeOf totalRays numChunks
    let order := dispatchedIndices totalRays numChunks chunkSize
    sc.receivers.mapM (fun receiver => do
      let start := List.replicate maxSampLength (0 : ℝ)
      let acc ← order.foldlM
        (fun acc i => do
          let rayData ← traceDirection fuel (dirs.get! i) sc receiver
            maxSampLength
          pure (List.zipWith (fun a b => a + b) acc rayData))
        start
      pure (finalizeChannel acc))

/-- The dynamic `Vec`/`NullVec` value space of Geometry.py: a `Vec` instance
carries three float coordinates, a `NullVec` instance carries
`coords = None`. -/
inductive PyV : Type
  | vec (x y z : ℝ) : PyV
  | nullv : PyV

/-- Dynamic result values of the Geometry.py methods: a Python float or a
vector object. -/
inductive PyVal : Type
  | num (r : ℝ) : PyVal
  | v (p : PyV) : PyVal

/-- `__getitem__`: a `Vec` returns the stored coordinate for keys 0/1/2
(other keys fall through, never used); a `NullVec` returns 0 for every
key. -/
def PyV.idx : PyV → ℕ → ℝ
  | .vec x _ _, 0 => x
  | .vec _ y _, 1 => y
  | .vec _ _ z, 2 => z
  | .vec _ _ _, _ => 0
  | .nullv, _ => 0

/-- The `+` operator: `NullVec.__add__` returns the right operand unchanged;
`Vec.__add__` adds componentwise through `__getitem__` (so a `NullVec` right
operand contributes zeros). -/
def PyV.add : PyV → PyV → PyV
  | .nullv, other => other
  | .vec x y z, other =>
    .vec (x + other.idx 0) (y + other.idx 1) (z + other.idx 2)

/-- `dot`: `Vec.dot` returns the float `Σ self[i]*other[i]`; `NullVec.dot`
returns a fresh `NullVec` *object* (its docstring: "Returns null vector"),
not the float 0. -/
def PyV.dotOp : PyV → PyV → PyVal
  | .nullv, _ => .v .nullv
  | .vec x y z, other =>
    .num (x * other.idx 0 + y * other.idx 1 + z * other.idx 2)

/-- `cross`: `Vec.cross` is the cartesian cross product through
`__getitem__`; `NullVec.cross` returns a `NullVec`. -/
def PyV.crossOp : PyV → PyV → PyV
  | .nullv, _ => .nullv
  | .vec x y z, other =>
    .vec (y * other.idx 2 - z * other.idx 1)
      (z * other.idx 0 - x * other.idx 2)
      (x * other.idx 1 - y * other.idx 0)

/-- `unit`: `NullVec.unit` returns a `NullVec`; `Vec.unit` divides each
coordinate by the magnitude `(self.dot(self))**0.5`. -/
noncomputable def PyV.unitOp : PyV → PyV
  | .nullv => .nullv
  | .vec x y z =>
    let m := Real.sqrt (x * x + y * y + z * z)
    .vec (x / m) (y / m) (z / m)

/-- The `*` operator between a vector object and a float.  Python dispatches
`v * c` to `__mul__`; `NullVec` defines only a method *named* `__mult__`,
which is not a special method Python ever calls, so both classes reach the
inherited `Vec.__mul__`, whose comprehension iterates `self.coords` — which
is `None` for a `NullVec`, raising `TypeError` (modelled as `none`). -/
def PyV.starMul : PyV → ℝ → Option PyV
  | .nullv, _ => none
  | .vec x y z, c => some (.vec (c * x) (c * y) (c * z))

/-- The body of the misspelled `NullVec.__mult__` method (present in the
class, never reached by any Python operator). -/
def PyV.multTypo : PyV → PyV → PyV := fun _ _ => .nullv

/-! ### Helper lemmas -/

@[simp] theorem V3.add_x (a b : V3) : (a + b).x = a.x + b.x := rfl

@[simp] theorem V3.add_y (a b : V3) : (a + b).y = a.y + b.y := rfl

@[simp] theorem V3.add_z (a b : V3) : (a + b).z = a.z + b.z := rfl

@[simp] theorem V3.sub_x (a b : V3) : (a - b).x = a.x - b.x := rfl

@[simp] theorem V3.sub_y (a b : V3) : (a - b).y = a.y - b.y := rfl

@[simp] theorem V3.sub_z (a b : V3) : (a - b).z = a.z - b.z := rfl

@[simp] theorem V3.smul_x (c : ℝ) (a : V3) : (c • a).x = c * a.x := rfl

@[simp] theorem V3.smul_y (c : ℝ) (a : V3) : (c • a).y = c * a.y := rfl

@[simp] theorem V3.smul_z (c : ℝ) (a : V3) : (c • a).z = c * a.z := rfl

@[ext] theorem V3.ext {a b : V3} (hx : a.x = b.x) (hy : a.y = b.y)
    (hz : a.z = b.z) : a = b := by
  cases a; cases b; simp_all

theorem attenGain_eq (d : ℝ) : attenGain d = Real.exp (-ATM_ATTEN * d / 2) := by
  unfold attenGain EULER
  rw [Real.exp_one_rpow, Real.rpow_def_of_pos (Real.exp_pos _), Real.log_exp]
  ring_nf

theorem attenGain_pos (d : ℝ) : 0 < attenGain d := by
  rw [attenGain_eq]; exact Real.exp_pos _

theorem attenGain_lt_one {d : ℝ} (h : 0 < d) : attenGain d < 1 := by
  rw [attenGain_eq, Real.exp_lt_one_iff]
  unfold ATM_ATTEN
  nlinarith

theorem pyRound_of_fract_ne {x : ℝ} (h : Int.fract x ≠ 1 / 2) :
    pyRound x = round x := if_neg h

/-! ### C5: effective sample rate under addSource/addSources/clear -/

/-- A mutation of the scene's source/receiver population — the operations
the sample-rate claim quantifies over. -/
inductive SceneOp : Type
  | add (s : Src) : SceneOp
  | addMany (l : List Src) : SceneOp
  | clearAll : SceneOp

/-- Run one scene operation (`addSource`, `addSources`, `clear`). -/
def applyOp (sc : SceneT) : SceneOp → SceneT
  | .add s => sc.addSource s
  | .addMany l => sc.addSources l
  | .clearAll => sc.clear

/-- Run a sequence of scene operations left to right. -/
def applyOps (sc : SceneT) (ops : List SceneOp) : SceneT := ops.foldl applyOp sc

/-- Maximum `sampRate` among a list of sources, 0 for the empty list
(matching the freshly constructed scene's `sampRate = 0`). -/
def maxRate (l : List Src) : ℕ := l.foldl (fun m s => max m s.sampRate) 0

/-- The sample rates of every source added over an operation sequence
(`clear` does not undo earlier additions). -/
def addedRates : List SceneOp → List ℕ
  | [] => []
  | SceneOp.add s :: ops => s.sampRate :: addedRates ops
  | SceneOp.addMany l :: ops => l.map Src.sampRate ++ addedRates ops
  | SceneOp.clearAll :: ops => addedRates ops

/-- A 5 Hz impulse source for the sample-rate counterexample. -/
def src5 : Src := ⟨nullV3, 5, [1]⟩

theorem addSources_sampRate (sc : SceneT) (l : List Src) :
    (sc.addSources l).sampRate = (l.map Src.sampRate).foldl max sc.sampRate := by
  induction l generalizing sc with
  | nil => rfl
  | cons s t ih =>
    simpa [SceneT.addSources, SceneT.addSource] using ih (sc.addSource s)

theorem addSources_tris (sc : SceneT) (l : List Src) :
    (sc.addSources l).tris = sc.tris := by
  induction l generalizing sc with
  | nil => rfl
  | cons s t ih =>
    simpa [SceneT.addSources, SceneT.addSource] using ih (sc.addSource s)

/-- C5 as stated fails on the code: `clear` empties the source list but
leaves `sampRate` at the old maximum, so after `[addSource src5, clear]`
the scene reports `sampRate = 5` while the maximum sample rate among the
(zero) currently held sources is 0. -/
theorem effectiveSampleRate_counterexample :
    (applyOps emptyScene [SceneOp.add src5, SceneOp.clearAll]).sampRate
      ≠ maxRate
        (applyOps emptyScene [SceneOp.add src5, SceneOp.clearAll]).sources := by
  simp [applyOps, applyOp, SceneT.addSource, SceneT.clear, emptyScene, maxRate,
    src5]

/-- C5 amended: over any sequence of `addSource`/`addSources`/`clear`
operations the scene's `sampRate` is the running maximum of the rates of
*all sources ever added* — not of the sources currently held, because
`clear` removes the sources and receivers (preserving the triangles and the
`sampRate`) without resetting the maximum. -/
theorem effectiveSampleRate_amended (sc : SceneT) (ops : List SceneOp) :
    (applyOps sc ops).sampRate = (addedRates ops).foldl max sc.sampRate
    ∧ (applyOps sc ops).tris = sc.tris
    ∧ sc.clear.sources = [] ∧ sc.clear.receivers = []
    ∧ sc.clear.tris = sc.tris ∧ sc.clear.sampRate = sc.sampRate := by
  refine ⟨?_, ?_, rfl, rfl, rfl, rfl⟩
  · induction ops generalizing sc with
    | nil => rfl
    | cons op t ih =>
      cases op with
      | add s =>
        simpa [applyOps, applyOp, SceneT.addSource, addedRates]
          using ih (sc.addSource s)
      | addMany l =>
        have h := ih (sc.addSources l)
        simp only [applyOps, List.foldl_cons, applyOp] at h ⊢
        rw [h, addSources_sampRate, addedRates, List.foldl_append]
      | clearAll =>
        simpa [applyOps, applyOp, SceneT.clear, addedRates] using ih sc.clear
  · induction ops generalizing sc with
    | nil => rfl
    | cons op t ih =>
      cases op with
      | add s =>
        simpa [applyOps, applyOp, SceneT.addSource] using ih (sc.addSource s)
      | addMany l =>
        have h := ih (sc.addSources l)
        simp only [applyOps, List.foldl_cons, applyOp] at h ⊢
        rw [h, addSources_tris]
      | clearAll =>
        simpa [applyOps, applyOp, SceneT.clear] using ih sc.clear

/-! ### C6: the Delay operator -/

/-- A 1 Hz impulse source for the Delay counterexample. -/
def srcHz1 : Src := ⟨nullV3, 1, [1]⟩

/-- C6 as stated fails on the code: at 1 Hz, `Delay(0.4)` twice prepends
`round(0.4) + round(0.4) = 0` zeros, while `Delay(0.8)` prepends
`round(0.8) = 1` zero — the signals differ. -/
theorem delay_compose_counterexample :
    srcDelay (srcDelay srcHz1 (2 / 5)) (2 / 5)
      ≠ srcDelay srcHz1 (2 / 5 + 2 / 5) := by
  intro h
  have h1 : pyRound ((2 : ℝ) / 5) = 0 := by
    rw [pyRound_of_fract_ne, round_eq] <;> norm_num [Int.fract]
  have h2 : pyRound ((2 : ℝ) / 5 + 2 / 5) = 1 := by
    rw [pyRound_of_fract_ne, round_eq] <;> norm_num [Int.fract]
  have hlen := congrArg (fun s => s.signal.length) h
  simp [srcDelay, srcHz1, h1, h2] at hlen

/-- C6 amended: `Delay(0)` is a no-op, and `Delay(a)` then `Delay(b)`
prepends `round(r·b) + round(r·a)` zeros in total; this equals `Delay(a+b)`
exactly when the two rounded sample counts add to `round(r·(a+b))` — the
counterexample shows they can differ (by one sample). -/
theorem delay_amended (s : Src) (a b : ℝ) :
    srcDelay s 0 = s
    ∧ (srcDelay (srcDelay s a) b).signal
        = List.replicate ((pyRound ((s.sampRate : ℝ) * b)).toNat
            + (pyRound ((s.sampRate : ℝ) * a)).toNat) 0 ++ s.signal
    ∧ ((pyRound ((s.sampRate : ℝ) * a)).toNat
          + (pyRound ((s.sampRate : ℝ) * b)).toNat
        = (pyRound ((s.sampRate : ℝ) * (a + b))).toNat
      → (srcDelay (srcDelay s a) b).signal = (srcDelay s (a + b)).signal) := by
  have hzero : pyRound ((s.sampRate : ℝ) * 0) = 0 := by
    rw [mul_zero, pyRound_of_fract_ne] <;>
      simp [Int.fract_zero]
  have hcomp : (srcDelay (srcDelay s a) b).signal
      = List.replicate ((pyRound ((s.sampRate : ℝ) * b)).toNat
          + (pyRound ((s.sampRate : ℝ) * a)).toNat) 0 ++ s.signal := by
    simp only [srcDelay, List.replicate_add, List.append_assoc]
  refine ⟨?_, hcomp, ?_⟩
  · unfold srcDelay
    rw [hzero]
    simp
  · intro hsum
    rw [hcomp, srcDelay, ← hsum]
    simp [Nat.add_comm]

/-- Witness for the amended Delay law: at 1 Hz, whole-second delays compose
exactly: `Delay(1)` then `Delay(2)` equals `Delay(3)` in signal content. -/
theorem delay_amended_witness :
    (srcDelay (srcDelay srcHz1 1) 2).signal = (srcDelay srcHz1 (1 + 2)).signal := by
  have h1 : pyRound ((1 : ℝ)) = 1 := by
    rw [pyRound_of_fract_ne, round_eq] <;> norm_num [Int.fract]
  have h2 : pyRound ((2 : ℝ)) = 2 := by
    rw [pyRound_of_fract_ne, round_eq] <;> norm_num [Int.fract]
  have h3 : pyRound ((3 : ℝ)) = 3 := by
    rw [pyRound_of_fract_ne, round_eq] <;> norm_num [Int.fract]
  refine (delay_amended srcHz1 1 2).2.2 ?_
  norm_num [srcHz1, h1, h2, h3]
  decide

/-! ### C9 and C10: the null vector -/

/-- C9 as stated fails on the code in its dot clause: `NullVec.dot` returns
a fresh `NullVec` object, not the float 0 (observably different — e.g.
`bool(NullVec())` is `True`, `bool(0.0)` is `False`). -/
theorem nullvec_dot_counterexample :
    PyV.dotOp PyV.nullv (PyV.vec 1 2 3) ≠ PyVal.num 0 := by
  intro h
  exact PyVal.noConfusion h

/-- C9 amended: `null + v = v`, `null × v = null` and `unit(null) = null`
hold as claimed; the dot product of null with any vector is the null
*vector* (a sentinel that indexes as 0), not the scalar 0. -/
theorem nullvec_identities_amended (p : PyV) :
    PyV.add PyV.nullv p = p
    ∧ PyV.crossOp PyV.nullv p = PyV.nullv
    ∧ PyV.unitOp PyV.nullv = PyV.nullv
    ∧ PyV.dotOp PyV.nullv p = PyVal.v PyV.nullv :=
  ⟨rfl, rfl, rfl, rfl⟩

/-- C10: multiplying a `NullVec` by any float reaches the inherited
`Vec.__mul__` (the `__mult__` spelling is never dispatched) and raises
`TypeError` because `coords` is `None`. -/
theorem nullvec_mul_typeerror (c : ℝ) : PyV.starMul PyV.nullv c = none := rfl

/-! ### C7: chunked dispatch of the direction grid -/

/-- C7 as stated fails on the code: with 5 directions, 3 samples and
`memChunk = 20` bytes, `numChunks = 60//20 + 1 = 4` and
`chunkSize = 5//3 = 1`, so only direction indices 0..3 are dispatched and
index 4 is silently dropped; and with 19 directions, 1 sample and
`memChunk = 40`, the one real chunk holds `19·1·4 = 76 > 40` bytes. -/
theorem chunking_counterexample :
    (4 < 5 ∧ 4 ∉ dispatchedIndices 5 (numChunksOf 5 3 20)
        (chunkSizeOf 5 (numChunksOf 5 3 20)))
    ∧ 40 < chunkSizeOf 19 (numChunksOf 19 1 40) * 1 * 4 := by decide

theorem dispatched_eq_take (R c n : ℕ) :
    dispatchedIndices R n c = (List.range R).take (n * c) := by
  induction n with
  | zero => simp [dispatchedIndices]
  | succ m ih =>
    rw [dispatchedIndices, List.range_succ, List.flatMap_append,
      show (List.range m).flatMap (chunkSlice R c) = dispatchedIndices R m c
        from rfl,
      ih]
    simp only [List.flatMap_cons, List.flatMap_nil, List.append_nil, chunkSlice]
    rw [Nat.succ_mul, List.take_add]

/-- C7 amended: the chunk loop dispatches exactly the first
`numChunks·chunkSize` direction indices, each at most once; every direction
is dispatched exactly once only when `numChunks·chunkSize ≥ A·P` (the
counterexample shows a dropped direction), the per-chunk byte bound
`chunkSize·numSamples·4 ≤ memChunk` can be exceeded, and
`4·A·P·numSamples < memChunk` makes `totalRays//(numChunks-1)` raise
`ZeroDivisionError`. -/
theorem chunking_amended (totalRays maxSampLength memChunk : ℕ) :
    dispatchedIndices totalRays (numChunksOf totalRays maxSampLength memChunk)
        (chunkSizeOf totalRays (numChunksOf totalRays maxSampLength memChunk))
      = (List.range totalRays).take
          ((numChunksOf totalRays maxSampLength memChunk)
            * chunkSizeOf totalRays (numChunksOf totalRays maxSampLength memChunk))
    ∧ (dispatchedIndices totalRays
        (numChunksOf totalRays maxSampLength memChunk)
        (chunkSizeOf totalRays (numChunksOf totalRays maxSampLength memChunk))).Nodup
    ∧ ∀ i, i ∈ dispatchedIndices totalRays
        (numChunksOf totalRays maxSampLength memChunk)
        (chunkSizeOf totalRays (numChunksOf totalRays maxSampLength memChunk))
      ↔ i < totalRays
        ∧ i < (numChunksOf totalRays maxSampLength memChunk)
            * chunkSizeOf totalRays (numChunksOf totalRays maxSampLength memChunk) := by
  refine ⟨dispatched_eq_take _ _ _, ?_, ?_⟩
  · rw [dispatched_eq_take, List.take_range]
    exact List.nodup_range _
  · intro i
    rw [dispatched_eq_take, List.take_range, List.mem_range]
    omega

/-! ### C4: triangle intersection -/

/-- The flat wall of spec §8 test 2: a large triangle in the plane y = 1. -/
noncomputable def wallTri : TriT := ⟨⟨-5, 1, -5⟩, ⟨5, 1, -5⟩, ⟨0, 1, 5⟩⟩

/-- A unit ray from the origin along +y (already of unit length, as
`Ray.__init__` produces). -/
noncomputable def rayY : RayT := ⟨⟨0, 1, 0⟩, ⟨0, 0, 0⟩, 0⟩

/-- C4: `Tri.Intersect` reports a hit iff the 3×3 linear system in
`β, γ, t` against the edges `e1 = v1-v0`, `e2 = v2-v0` is non-singular and
`β + γ < 1`; on a hit it returns `t` — possibly negative — together with
`ray.origin + t·ray.direction`; on a singular matrix it returns
`(false, 0, null)`. -/
theorem tri_intersect_spec (t : TriT) (ray : RayT) :
    (det3 (t.v1 - t.v0) (t.v2 - t.v0) ray.direction = 0 →
      triIntersect t ray = (false, 0, nullV3))
    ∧ ∀ beta gamma dist : ℝ,
        det3 (t.v1 - t.v0) (t.v2 - t.v0) ray.direction ≠ 0 →
        beta • (t.v1 - t.v0) + gamma • (t.v2 - t.v0) + dist • ray.direction
          = t.v0 - ray.origin →
        triIntersect t ray
          = (decide (gamma + beta < 1), dist,
              ray.origin + dist • ray.direction) := by
  constructor
  · intro h
    simp only [triIntersect]
    rw [if_pos h]
  · intro beta gamma dist hd hsys
    have hx := congrArg V3.x hsys
    have hy := congrArg V3.y hsys
    have hz := congrArg V3.z hsys
    simp only [V3.add_x, V3.add_y, V3.add_z, V3.smul_x, V3.smul_y, V3.smul_z,
      V3.sub_x, V3.sub_y, V3.sub_z] at hx hy hz
    have hbeta : det3 (t.v0 - ray.origin) (t.v2 - t.v0) ray.direction
        = beta * det3 (t.v1 - t.v0) (t.v2 - t.v0) ray.direction := by
      simp only [det3, V3.sub_x, V3.sub_y, V3.sub_z]
      rw [← hx, ← hy, ← hz]; ring
    have hgamma : det3 (t.v1 - t.v0) (t.v0 - ray.origin) ray.direction
        = gamma * det3 (t.v1 - t.v0) (t.v2 - t.v0) ray.direction := by
      simp only [det3, V3.sub_x, V3.sub_y, V3.sub_z]
      rw [← hx, ← hy, ← hz]; ring
    have hdist : det3 (t.v1 - t.v0) (t.v2 - t.v0) (t.v0 - ray.origin)
        = dist * det3 (t.v1 - t.v0) (t.v2 - t.v0) ray.direction := by
      simp only [det3, V3.sub_x, V3.sub_y, V3.sub_z]
      rw [← hx, ← hy, ← hz]; ring
    simp only [triIntersect, hbeta, hgamma, hdist]
    rw [if_neg hd, mul_div_cancel_right₀ _ hd, mul_div_cancel_right₀ _ hd,
      mul_div_cancel_right₀ _ hd]

/-- Witness: the wall triangle and the +y unit ray give a non-singular
system (determinant −100) whose solution is `β = −1/4, γ = −1/2, t = 1`,
so `Tri.Intersect` reports a hit (the permissive `β + γ < 1` predicate)
at distance 1 and point `(0, 1, 0)`. -/
theorem tri_intersect_spec_witness :
    det3 (wallTri.v1 - wallTri.v0) (wallTri.v2 - wallTri.v0) rayY.direction ≠ 0
    ∧ triIntersect wallTri rayY = (true, 1, ⟨0, 1, 0⟩) := by
  have hd : det3 (wallTri.v1 - wallTri.v0) (wallTri.v2 - wallTri.v0)
      rayY.direction ≠ 0 := by
    norm_num [det3, wallTri, rayY]
  have hsys : (-(1/4) : ℝ) • (wallTri.v1 - wallTri.v0)
      + (-(1/2) : ℝ) • (wallTri.v2 - wallTri.v0)
      + (1 : ℝ) • rayY.direction = wallTri.v0 - rayY.origin := by
    ext <;> norm_num [wallTri, rayY]
  refine ⟨hd, ?_⟩
  rw [(tri_intersect_spec wallTri rayY).2 (-(1/4)) (-(1/2)) 1 hd hsys]
  refine Prod.ext ?_ (Prod.ext rfl ?_)
  · simp only [decide_eq_true_eq]
    norm_num
  · ext <;> norm_num [rayY]

/-! ### C8: the direct-contribution write of Ray.Trace -/

/-- An on-axis source 34.35 m up the y-axis at 8 kHz with a 792-sample
signal: its sphere hit is at exactly 34.3 m. -/
noncomputable def srcFar : Src := ⟨⟨0, 687/20, 0⟩, 8000, List.replicate 792 1⟩

theorem srcIntersect_far_eval :
    srcIntersect srcFar rayY = (true, 343/10, ⟨0, 343/10, 0⟩) := by
  have h20 : Real.sqrt 400 = 20 := by
    rw [show (400:ℝ) = 20^2 by norm_num, Real.sqrt_sq (by norm_num)]
  unfold srcIntersect
  simp only [srcFar, rayY, srcRadius, V3.dot, V3.sub_x, V3.sub_y, V3.sub_z]
  norm_num [h20]
  ext <;> norm_num

theorem delaySamples_far_eval : delaySamples 8000 (343/10) = 800 := by
  have h : pyRound ((800:ℝ)) = 800 := by
    rw [pyRound_of_fract_ne, round_eq] <;> norm_num [Int.fract]
  unfold delaySamples PROP_SPEED
  norm_num [h]
  decide

/-- C8 as stated fails on the code: for `srcFar` (34.3 m away, 8 kHz,
792-sample signal) and a 10-sample buffer, `delaySamples = 800 ≥ 10`, yet
the negative Python slice `signal[:10-800]` still holds 2 samples while
the target slice `rayData[800:10]` is empty, so the numpy `+=` raises a
broadcast `ValueError` instead of succeeding with no contribution. -/
theorem direct_write_counterexample :
    directContribution srcFar rayY 10 (List.replicate 10 0) = none := by
  unfold directContribution
  rw [srcIntersect_far_eval]
  simp only [MAX_PATH_LEN, rayY]
  rw [if_pos (by norm_num)]
  simp only [srcFar]
  rw [delaySamples_far_eval]
  simp only [pySliceTo, npAddSlice]
  norm_num

theorem zipWith_add_getD (A B : List ℝ) (i : ℕ) (h1 : i < A.length)
    (h2 : i < B.length) :
    (List.zipWith (fun b v => b + v) A B).getD i 0 = A.getD i 0 + B.getD i 0 := by
  have hz : i < (List.zipWith (fun b v : ℝ => b + v) A B).length := by
    rw [List.length_zipWith]; omega
  rw [List.getD_eq_getElem _ _ hz, List.getD_eq_getElem _ _ h1,
    List.getD_eq_getElem _ _ h2, List.getElem_zipWith]

theorem getD_drop_add (l : List ℝ) (n j : ℕ) :
    (l.drop n).getD j 0 = l.getD (n + j) 0 := by
  rcases lt_or_ge j (l.drop n).length with h | h
  · rw [List.getD_eq_getElem _ _ h, List.getElem_drop,
      List.getD_eq_getElem _ _ (by simp at h; omega)]
  · rw [List.getD_eq_default _ _ h, List.getD_eq_default]
    simp at h ⊢
    omega

theorem getD_take_lt (l : List ℝ) (n j : ℕ) (h : j < n) :
    (l.take n).getD j 0 = l.getD j 0 := by
  rcases lt_or_ge j (l.take n).length with h2 | h2
  · rw [List.getD_eq_getElem _ _ h2, List.getElem_take,
      List.getD_eq_getElem _ _ (by simp at h2; omega)]
  · rw [List.getD_eq_default _ _ h2, List.getD_eq_default]
    simp at h2 ⊢
    omega

theorem npAddSlice_getD (buf vals : List ℝ) (start stop : ℕ)
    (hstart : start ≤ buf.length) (hstop : stop ≤ buf.length)
    (hss : start ≤ stop) (hv : vals.length = stop - start) :
    ∃ out, npAddSlice buf start stop vals = some out
      ∧ out.length = buf.length
      ∧ ∀ j, j < buf.length →
          out.getD j 0 = (if start ≤ j ∧ j < stop
            then buf.getD j 0 + vals.getD (j - start) 0
            else buf.getD j 0) := by
  have hs : min start buf.length = start := by omega
  have he : max start (min stop buf.length) = stop := by omega
  refine ⟨buf.take start
      ++ List.zipWith (fun b v => b + v)
        ((buf.drop start).take (stop - start)) vals
      ++ buf.drop stop, ?_, ?_, ?_⟩
  · unfold npAddSlice
    simp only [hs, he]
    rw [if_pos hv]
  · simp only [List.length_append, List.length_take, List.length_zipWith,
      List.length_drop, hv]
    omega
  · intro j hj
    have hlt : (List.take start buf).length = start := by
      simp only [List.length_take]
      omega
    have hmid : (List.zipWith (fun b v => b + v)
        ((buf.drop start).take (stop - start)) vals).length = stop - start := by
      simp only [List.length_zipWith, List.length_take, List.length_drop, hv]
      omega
    have hX : (List.take start buf ++ List.zipWith (fun b v => b + v)
        ((buf.drop start).take (stop - start)) vals).length = stop := by
      simp only [List.length_append, hlt, hmid]
      omega
    by_cases h1 : j < start
    · rw [if_neg (by omega),
        List.getD_append _ _ _ j (by rw [hX]; omega),
        List.getD_append _ _ _ j (by omega),
        getD_take_lt _ _ _ h1]
    · by_cases h2 : j < stop
      · have hA : j - start < ((buf.drop start).take (stop - start)).length := by
          simp only [List.length_take, List.length_drop]
          omega
        have hB : j - start < vals.length := by omega
        rw [if_pos ⟨by omega, h2⟩,
          List.getD_append _ _ _ j (by rw [hX]; omega),
          List.getD_append_right _ _ _ j (by omega), hlt,
          zipWith_add_getD _ _ _ hA hB,
          getD_take_lt _ _ _ (by omega), getD_drop_add]
        rw [show start + (j - start) = j from by omega]
      · rw [if_neg (by omega),
          List.getD_append_right _ _ _ j (by rw [hX]; omega), hX,
          getD_drop_add]
        rw [show stop + (j - stop) = j from by omega]


theorem npAddSlice_degenerate (buf vals : List ℝ) (start stop : ℕ)
    (h : buf.length ≤ start) (h2 : stop ≤ buf.length) :
    npAddSlice buf start stop vals
      = if vals.length ≤ 1 then some buf else none := by
  have hs : min start buf.length = buf.length := by omega
  have he : max buf.length (min stop buf.length) = buf.length := by omega
  unfold npAddSlice
  simp only [hs, he, Nat.sub_self, List.take_length, List.drop_length,
    List.take_zero, List.zipWith_nil_left, List.map_nil, List.append_nil]
  rcases Nat.lt_or_ge vals.length 1 with h0 | h0
  · rw [if_pos (by omega), if_pos (by omega)]
  · rcases Nat.lt_or_ge vals.length 2 with h1 | h1
    · rw [if_neg (by omega), if_pos (by omega), if_pos (by omega)]
    · rw [if_neg (by omega), if_neg (by omega), if_neg (by omega)]

/-- C8 amended: when the ray hits a source within the path budget, writes
land only at indices `delaySamples + i` for
`i < min(len(signal), numSamples - delaySamples)` *provided
`delaySamples < numSamples`*; when `delaySamples ≥ numSamples` the call
succeeds with no contribution only if the Python slice
`signal[:numSamples-delaySamples]` keeps at most one sample — with two or
more, numpy raises a broadcast `ValueError`. -/
theorem direct_write_amended (src : Src) (ray : RayT) (ns : ℕ) (buf : List ℝ)
    (sd : ℝ) (pt : V3) (d : ℕ)
    (hint : srcIntersect src ray = (true, sd, pt))
    (hpos : 0 < sd) (hmax : sd + ray.distance < MAX_PATH_LEN)
    (hd : d = delaySamples src.sampRate sd)
    (hlen : buf.length = ns) :
    (d < ns →
      ∃ out, directContribution src ray ns buf = some out
        ∧ out.length = ns
        ∧ (∀ i, i < min src.signal.length (ns - d) →
            out.getD (d + i) 0
              = buf.getD (d + i) 0
                + attenGain (sd + ray.distance) * src.signal.getD i 0)
        ∧ (∀ j, j < ns → (j < d ∨ d + min src.signal.length (ns - d) ≤ j) →
            out.getD j 0 = buf.getD j 0))
    ∧ (ns ≤ d →
        ((pySliceTo src.signal ((ns : ℤ) - (d : ℤ))).length ≤ 1 →
          directContribution src ray ns buf = some buf)
        ∧ (2 ≤ (pySliceTo src.signal ((ns : ℤ) - (d : ℤ))).length →
          directContribution src ray ns buf = none)) := by
  have hred : directContribution src ray ns buf
      = npAddSlice buf d (min (d + src.signal.length) ns)
          ((pySliceTo src.signal ((ns : ℤ) - (d : ℤ))).map
            (fun v => attenGain (sd + ray.distance) * v)) := by
    unfold directContribution
    simp only [hint]
    rw [if_pos ⟨trivial, hpos, hmax⟩, ← hd]
  constructor
  · intro hdlt
    have htn : ((ns : ℤ) - (d : ℤ)).toNat = ns - d := by omega
    have hslice : pySliceTo src.signal ((ns : ℤ) - (d : ℤ))
        = src.signal.take (ns - d) := by
      unfold pySliceTo
      rw [if_neg (by omega), htn]
    have hvlen : ((pySliceTo src.signal ((ns : ℤ) - (d : ℤ))).map
          (fun v => attenGain (sd + ray.distance) * v)).length
        = min (d + src.signal.length) ns - d := by
      rw [hslice]
      simp only [List.length_map, List.length_take]
      omega
    obtain ⟨out, ho, hl, hp⟩ := npAddSlice_getD buf
      ((pySliceTo src.signal ((ns : ℤ) - (d : ℤ))).map
        (fun v => attenGain (sd + ray.distance) * v))
      d (min (d + src.signal.length) ns)
      (by omega) (by omega) (by omega) hvlen
    refine ⟨out, by rw [hred, ho], by rw [hl, hlen], ?_, ?_⟩
    · intro i hi
      have hib : i < (pySliceTo src.signal ((ns : ℤ) - (d : ℤ))).length := by
        rw [hslice]
        simp only [List.length_take]
        omega
      have hmap : ((pySliceTo src.signal ((ns : ℤ) - (d : ℤ))).map
            (fun v => attenGain (sd + ray.distance) * v)).getD i 0
          = attenGain (sd + ray.distance)
              * (pySliceTo src.signal ((ns : ℤ) - (d : ℤ))).getD i 0 := by
        rw [List.getD_eq_getElem _ _ (by simpa using hib),
          List.getElem_map, List.getD_eq_getElem _ _ hib]
      have := hp (d + i) (by omega)
      rw [if_pos ⟨by omega, by omega⟩] at this
      rw [this, show d + i - d = i from by omega, hmap, hslice,
        getD_take_lt _ _ _ (by omega)]
    · intro j hj hout
      have := hp j (by omega)
      rw [if_neg (by omega)] at this
      rw [this]
  · intro hnds
    have hdeg : npAddSlice buf d (min (d + src.signal.length) ns)
        ((pySliceTo src.signal ((ns : ℤ) - (d : ℤ))).map
          (fun v => attenGain (sd + ray.distance) * v))
        = if ((pySliceTo src.signal ((ns : ℤ) - (d : ℤ))).map
            (fun v => attenGain (sd + ray.distance) * v)).length ≤ 1
          then some buf else none :=
      npAddSlice_degenerate _ _ _ _ (by omega) (by omega)
    constructor
    · intro hle
      rw [hred, hdeg, if_pos (by simpa using hle)]
    · intro hge
      rw [hred, hdeg, if_neg (by simp only [List.length_map]; omega)]

/-- An on-axis impulse source 2.05 m up the y-axis at 343 Hz: sphere hit at
exactly 2 m, delay of exactly 2 samples. -/
noncomputable def srcNear : Src := ⟨⟨0, 41/20, 0⟩, 343, [1]⟩

theorem srcIntersect_near_eval :
    srcIntersect srcNear rayY = (true, 2, ⟨0, 2, 0⟩) := by
  have h20 : Real.sqrt 400 = 20 := by
    rw [show (400:ℝ) = 20^2 by norm_num, Real.sqrt_sq (by norm_num)]
  unfold srcIntersect
  simp only [srcNear, rayY, srcRadius, V3.dot, V3.sub_x, V3.sub_y, V3.sub_z]
  norm_num [h20]
  ext <;> norm_num

theorem delaySamples_near_eval : delaySamples 343 2 = 2 := by
  have h : pyRound ((2:ℝ)) = 2 := by
    rw [pyRound_of_fract_ne, round_eq] <;> norm_num [Int.fract]
  unfold delaySamples PROP_SPEED
  norm_num [h]
  decide

/-- Witness for the amended direct-write law: the in-range case writes the
attenuated impulse at index `delaySamples = 2` of a 5-sample buffer. -/
theorem direct_write_amended_witness :
    ∃ out, directContribution srcNear rayY 5 (List.replicate 5 0) = some out
      ∧ out.length = 5 ∧ out.getD 2 0 = attenGain 2 := by
  obtain ⟨out, ho, hl, hp, hf⟩ :=
    (direct_write_amended srcNear rayY 5 (List.replicate 5 0) 2 ⟨0, 2, 0⟩ 2
      srcIntersect_near_eval (by norm_num)
      (by simp only [rayY]; unfold MAX_PATH_LEN; norm_num)
      (by rw [show srcNear.sampRate = 343 from rfl, delaySamples_near_eval])
      (by simp)).1 (by norm_num)
  refine ⟨out, ho, by simpa using hl, ?_⟩
  have h0 := hp 0 (by simp [srcNear])
  simp only [srcNear, rayY] at h0
  norm_num at h0
  simpa using h0

/-! ### C1: the reflection gain law -/

/-- The flat-wall scenario of spec §8 test 2: an impulse source half a
metre behind the receiver on the y-axis, at 343 Hz (one sample per metre of
travel). -/
noncomputable def srcWall : Src := ⟨⟨0, -(1/2), 0⟩, 343, [1]⟩

/-- A receiver at the origin. -/
noncomputable def recvO : Recv := ⟨⟨0, 0, 0⟩⟩

/-- Scene: the single wall at y = 1 plus the impulse source behind the
receiver. -/
noncomputable def sceneWall : SceneT := ⟨[srcWall], [wallTri], [recvO], 343⟩

/-- The reflected child ray: origin at the wall hit `(0,1,0)`, direction
`-y`, one metre already travelled. -/
noncomputable def rayBack : RayT := ⟨⟨0, -1, 0⟩, ⟨0, 1, 0⟩, 1⟩

theorem srcIntersect_wall0 :
    srcIntersect srcWall rayY = (true, -(9/20), ⟨0, -(9/20), 0⟩) := by
  have h20 : Real.sqrt 400 = 20 := by
    rw [show (400:ℝ) = 20^2 by norm_num, Real.sqrt_sq (by norm_num)]
  unfold srcIntersect
  simp only [srcWall, rayY, srcRadius, V3.dot, V3.sub_x, V3.sub_y, V3.sub_z]
  norm_num [h20]
  ext <;> norm_num

theorem directContribution_wall0 (ns : ℕ) (buf : List ℝ) :
    directContribution srcWall rayY ns buf = some buf := by
  unfold directContribution
  rw [srcIntersect_wall0]
  rw [if_neg (by norm_num)]

theorem triIntersect_wall_fwd :
    triIntersect wallTri rayY = (true, 1, ⟨0, 1, 0⟩) := by
  unfold triIntersect
  rw [if_neg (by norm_num [wallTri, rayY, det3])]
  refine Prod.ext ?_ (Prod.ext ?_ ?_)
  · show decide _ = _
    simp only [decide_eq_true_eq]
    norm_num [wallTri, rayY, det3]
  · show _ / _ = _
    norm_num [wallTri, rayY, det3]
  · show _ + _ • _ = _
    norm_num [wallTri, rayY, det3]
    ext <;> norm_num

theorem findNearest_wall_fwd :
    findNearest [wallTri] rayY = some (1, ⟨0, 1, 0⟩, wallTri) := by
  unfold findNearest
  simp only [List.foldl_cons, List.foldl_nil, triIntersect_wall_fwd]
  norm_num

theorem triReflect_wall :
    triReflect wallTri ⟨0, 1, 0⟩ = ⟨0, -1, 0⟩ := by
  have h : Real.sqrt 10000 = 100 := by
    rw [show (10000:ℝ) = 100^2 by norm_num, Real.sqrt_sq (by norm_num)]
  unfold triReflect TriT.normV V3.unit V3.mag
  simp only [wallTri, V3.cross, V3.dot, V3.sub_x, V3.sub_y, V3.sub_z]
  norm_num [h]
  ext <;> norm_num

theorem mkRay_back :
    mkRay ⟨0, -1, 0⟩ ⟨0, 1, 0⟩ 1 = rayBack := by
  unfold mkRay V3.unit V3.mag rayBack
  norm_num [V3.dot]

theorem srcIntersect_wall1 :
    srcIntersect srcWall rayBack = (true, 29/20, ⟨0, -(9/20), 0⟩) := by
  have h20 : Real.sqrt 400 = 20 := by
    rw [show (400:ℝ) = 20^2 by norm_num, Real.sqrt_sq (by norm_num)]
  unfold srcIntersect
  simp only [srcWall, rayBack, srcRadius, V3.dot, V3.sub_x, V3.sub_y, V3.sub_z]
  norm_num [h20]
  ext <;> norm_num

theorem delaySamples_wall : delaySamples 343 (29/20) = 1 := by
  have h : pyRound ((29:ℝ)/20) = 1 := by
    rw [pyRound_of_fract_ne, round_eq] <;> norm_num [Int.fract]
  unfold delaySamples PROP_SPEED
  norm_num [h]

theorem directContribution_wall1 :
    directContribution srcWall rayBack 40 (List.replicate 40 0)
      = some (0 :: (0 + attenGain (49/20) * 1) :: List.replicate 38 0) := by
  unfold directContribution
  rw [srcIntersect_wall1]
  rw [if_pos (by unfold MAX_PATH_LEN; norm_num [rayBack])]
  simp only [rayBack, srcWall]
  rw [delaySamples_wall]
  simp only [pySliceTo, npAddSlice]
  norm_num [Int.toNat_ofNat, List.take_of_length_le]

theorem triIntersect_wall_back :
    triIntersect wallTri rayBack = (true, 0, ⟨0, 1, 0⟩) := by
  unfold triIntersect
  rw [if_neg (by norm_num [wallTri, rayBack, det3])]
  refine Prod.ext ?_ (Prod.ext ?_ ?_)
  · show decide _ = _
    simp only [decide_eq_true_eq]
    norm_num [wallTri, rayBack, det3]
  · show _ / _ = _
    norm_num [wallTri, rayBack, det3]
  · show _ + _ • _ = _
    norm_num [wallTri, rayBack, det3]
    ext <;> norm_num

theorem findNearest_wall_back :
    findNearest [wallTri] rayBack = none := by
  unfold findNearest
  simp only [List.foldl_cons, List.foldl_nil, triIntersect_wall_back]
  norm_num

theorem rayTrace_wall_level1 (n : ℕ) :
    rayTrace sceneWall n rayBack 40 (List.replicate 40 0)
        (REFL_COEFF * attenGain 1)
      = some (0
          :: REFL_COEFF * attenGain 1 * (0 + attenGain (49/20) * 1)
          :: List.replicate 38 0) := by
  have hne : REFL_COEFF * attenGain 1 ≠ 1 := by
    have h1 : attenGain 1 < 1 := attenGain_lt_one (by norm_num)
    have h2 : 0 < attenGain 1 := attenGain_pos 1
    have h3 : (0:ℝ) < REFL_COEFF := by unfold REFL_COEFF; norm_num
    have h4 : REFL_COEFF < 1 := by unfold REFL_COEFF; norm_num
    nlinarith
  unfold rayTrace
  simp only [sceneWall, directStep, List.foldlM, directContribution_wall1,
    findNearest_wall_back, Option.pure_def, Option.bind_eq_bind,
    Option.some_bind]
  rw [if_neg hne]
  simp only [List.map_cons, List.map_replicate, mul_zero]

theorem rayTrace_wall_eval (n : ℕ) (att : ℝ) :
    rayTrace sceneWall (n + 1) rayY 40 (List.replicate 40 0) att
      = some (0
          :: att * (REFL_COEFF * attenGain 1 * attenGain (49/20))
          :: List.replicate 38 0) := by
  unfold rayTrace
  simp only [sceneWall, directStep, List.foldlM, directContribution_wall0,
    findNearest_wall_fwd, Option.pure_def, Option.bind_eq_bind,
    Option.some_bind]
  rw [if_pos (by unfold MAX_PATH_LEN; norm_num [rayY])]
  simp only [rayY, add_zero, zero_add, triReflect_wall]
  rw [show (⟨[srcWall], [wallTri], [recvO], 343⟩ : SceneT) = sceneWall from rfl,
    mkRay_back, rayTrace_wall_level1 n]
  simp only [Option.bind_eq_bind, Option.some_bind]
  by_cases hatt : att = 1
  · rw [if_pos hatt, hatt]
    simp only [Option.some.injEq, List.cons.injEq]
    exact ⟨trivial, by ring, trivial⟩
  · rw [if_neg hatt]
    simp only [List.map_cons, List.map_replicate, mul_zero,
      Option.some.injEq, List.cons.injEq]
    exact ⟨trivial, by ring, trivial⟩

theorem attenGain_merge :
    attenGain 1 * attenGain (49/20) = Real.exp (-ATM_ATTEN * ((49/20) + 1) / 2) := by
  rw [attenGain_eq, attenGain_eq, ← Real.exp_add]
  congr 1
  ring

/-- C1 as stated fails on the code.  On the flat-wall path (wall hit after
`c₁ = 1` m, source hit at cumulative `d₁ = 2.45` m) the single reflected
contribution, with outer attenuation 1, lands in the buffer with gain
`REFL_COEFF · exp(-ATM_ATTEN·1/2) · exp(-ATM_ATTEN·2.45/2)` — the claimed
gain `REFL_COEFF¹ · exp(-ATM_ATTEN · d₁ / 2)` is missing the extra
`exp(-ATM_ATTEN·c₁/2)` that the post-recursion buffer multiply applies. -/
theorem refl_gain_counterexample :
    rayTrace sceneWall 2 rayY 40 (List.replicate 40 0) 1
      = some (0 :: REFL_COEFF * attenGain 1 * attenGain (49/20)
          :: List.replicate 38 0)
    ∧ REFL_COEFF * attenGain 1 * attenGain (49/20)
        ≠ REFL_COEFF ^ 1 * Real.exp (-ATM_ATTEN * (49/20) / 2) := by
  constructor
  · simpa using rayTrace_wall_eval 1 1
  · intro h
    rw [attenGain_eq, attenGain_eq, pow_one, mul_assoc, ← Real.exp_add] at h
    have hR : (REFL_COEFF:ℝ) ≠ 0 := by unfold REFL_COEFF; norm_num
    have h2 := Real.exp_injective (mul_left_cancel₀ hR h)
    unfold ATM_ATTEN at h2
    norm_num at h2

/-- C1 amended: because each recursion level multiplies the *whole shared
buffer* by its attenuation after the recursive call, a contribution written
with source hit at cumulative length `d_k` receives gain
`REFL_COEFF^n · exp(-ATM_ATTEN · (d_k + c₁ + … + c_n) / 2)` times the
outermost attenuation, where `c_j` are the cumulative lengths at *all* `n`
reflections executed in the chain — not `REFL_COEFF^k · exp(-ATM_ATTEN ·
d_k / 2)`.  On the flat-wall geometry (`k = n = 1`, `d₁ = 49/20`,
`c₁ = 1`), for every outer attenuation. -/
theorem refl_gain_amended (att : ℝ) :
    rayTrace sceneWall 2 rayY 40 (List.replicate 40 0) att
      = some (0
          :: REFL_COEFF ^ 1 * Real.exp (-ATM_ATTEN * ((49/20) + 1) / 2) * att
          :: List.replicate 38 0) := by
  rw [show (2:ℕ) = 1 + 1 from rfl, rayTrace_wall_eval 1 att]
  simp only [Option.some.injEq, List.cons.injEq]
  exact ⟨trivial, by rw [pow_one, ← attenGain_merge]; ring, trivial⟩

/-! ### C2 and C3: Scene.Trace accumulation and peak normalization -/

/-- The single primary ray of a 1×1 direction grid: straight up the z-axis
from the origin. -/
noncomputable def rayUp : RayT := ⟨⟨0, 0, 1⟩, ⟨0, 0, 0⟩, 0⟩

theorem directionsGrid_one : directionsGrid 1 1 = [⟨0, 0, 1⟩] := by
  unfold directionsGrid
  rw [show List.range 1 = [0] from rfl]
  simp only [List.flatMap_cons, List.flatMap_nil, List.map_cons, List.map_nil,
    List.append_nil]
  ext <;> norm_num

theorem mkRay_up : mkRay ⟨0, 0, 1⟩ ⟨0, 0, 0⟩ 0 = rayUp := by
  unfold mkRay V3.unit V3.mag rayUp
  norm_num [V3.dot]

theorem zipWith_zero_add (l : List ℝ) (n : ℕ) (h : n = l.length) :
    List.zipWith (fun a b => a + b) (List.replicate n 0) l = l := by
  subst h
  induction l with
  | nil => rfl
  | cons x xs ih => simp [List.replicate_succ, ih]

theorem foldl_max_const (n : ℕ) (a c : ℝ) (h : c ≤ a) :
    List.foldl max a (List.replicate n c) = a := by
  induction n with
  | zero => rfl
  | succ m ih => simp [List.replicate_succ, max_eq_left h, ih]

/-- A 40 Hz source 2 m up the z-axis whose stored signal is the
constructor-normalized `[1, -2]` — the signed-max normalization leaves the
−2 in place, so such a source is reachable through `Source.__init__`. -/
noncomputable def srcC2 : Src := ⟨⟨0, 0, 2⟩, 40, mkSourceSignal [1, -2]⟩

/-- Triangle-free scene for the peak-normalization counterexample. -/
noncomputable def sceneC2 : SceneT := ⟨[srcC2], [], [recvO], 40⟩

theorem mkSourceSignal_c2 : mkSourceSignal [1, -2] = [1, -2] := by
  unfold mkSourceSignal npMax
  rw [show List.max? [(1:ℝ), -2] = some (max 1 (-2)) from rfl]
  norm_num

theorem srcIntersect_c2 :
    srcIntersect srcC2 rayUp = (true, 39/20, ⟨0, 0, 39/20⟩) := by
  have h20 : Real.sqrt 400 = 20 := by
    rw [show (400:ℝ) = 20^2 by norm_num, Real.sqrt_sq (by norm_num)]
  unfold srcIntersect
  simp only [srcC2, rayUp, srcRadius, V3.dot, V3.sub_x, V3.sub_y, V3.sub_z]
  norm_num [h20]
  ext <;> norm_num

theorem delaySamples_c2 : delaySamples 40 (39/20) = 0 := by
  have h : pyRound ((78:ℝ)/343) = 0 := by
    rw [pyRound_of_fract_ne, round_eq] <;> norm_num [Int.fract]
  unfold delaySamples PROP_SPEED
  norm_num [h]

theorem directContribution_c2 :
    directContribution srcC2 rayUp 40 (List.replicate 40 0)
      = some (attenGain (39/20) * 1
          :: attenGain (39/20) * -2 :: List.replicate 38 0) := by
  unfold directContribution
  rw [srcIntersect_c2]
  rw [if_pos (by unfold MAX_PATH_LEN; norm_num [rayUp])]
  simp only [rayUp, srcC2, add_zero, mkSourceSignal_c2]
  rw [delaySamples_c2]
  simp only [pySliceTo, npAddSlice]
  norm_num [Int.toNat_ofNat, List.take_of_length_le]
  rw [zipWith_zero_add _ 2 (by norm_num)]
  simp

theorem findNearest_nil (ray : RayT) : findNearest [] ray = none := rfl

theorem rayTrace_c2 (n : ℕ) :
    rayTrace sceneC2 n rayUp 40 (List.replicate 40 0) 1
      = some (attenGain (39/20) * 1
          :: attenGain (39/20) * -2 :: List.replicate 38 0) := by
  unfold rayTrace
  simp only [sceneC2, directStep, List.foldlM, directContribution_c2,
    findNearest_nil, Option.pure_def, Option.bind_eq_bind, Option.some_bind,
    if_true]

theorem finalizeChannel_c2 :
    finalizeChannel (attenGain (39/20) * 1 :: attenGain (39/20) * -2
        :: List.replicate 38 0)
      = some 1 :: some (-2) :: List.replicate 38 (some 0) := by
  have hg : (0:ℝ) < attenGain (39/20) := attenGain_pos _
  have hgne : attenGain (39/20) * 1 ≠ 0 := by nlinarith
  have hmax : npMax (attenGain (39/20) * 1 :: attenGain (39/20) * -2
      :: List.replicate 38 0) = attenGain (39/20) * 1 := by
    unfold npMax
    rw [show List.max? (attenGain (39/20) * 1 :: attenGain (39/20) * -2
        :: List.replicate 38 0)
      = some (List.foldl max (attenGain (39/20) * 1)
          (attenGain (39/20) * -2 :: List.replicate 38 0)) from rfl]
    simp only [List.foldl_cons]
    rw [max_eq_left (by nlinarith), foldl_max_const _ _ _ (by nlinarith)]
    rfl
  unfold finalizeChannel
  rw [hmax]
  simp only [List.map_cons, List.map_replicate, fdiv, if_neg hgne]
  rw [div_self hgne]
  rw [show attenGain (39/20) * -2 / (attenGain (39/20) * 1) = -2 by
    field_simp
    ring]
  rw [show (0:ℝ) / (attenGain (39/20) * 1) = 0 from zero_div _]

theorem sceneTrace_c2 :
    sceneTrace 1 sceneC2 1 1 1 160
      = some [some 1 :: some (-2) :: List.replicate 38 (some 0)] := by
  unfold sceneTrace
  simp only [directionsGrid_one, show sceneC2.sampRate = 40 from rfl,
    show sceneC2.receivers = [recvO] from rfl, List.length_cons,
    List.length_nil]
  simp only [show (0+1 : ℕ) = 1 from rfl, show (40*1 : ℕ) = 40 from rfl,
    show numChunksOf 1 40 160 = 2 from by decide,
    show chunkSizeOf 1 2 = 1 from by decide,
    show dispatchedIndices 1 2 1 = [0] from by decide]
  rw [if_neg (by norm_num)]
  simp only [List.mapM_cons, List.mapM_nil, List.foldlM_cons, List.foldlM_nil]
  unfold traceDirection
  simp only [show ([(⟨0,0,1⟩ : V3)] : List V3).get! 0 = (⟨0,0,1⟩ : V3) from rfl,
    show recvO.location = (⟨0,0,0⟩ : V3) from rfl, mkRay_up, rayTrace_c2 1,
    Option.pure_def, Option.bind_eq_bind, Option.some_bind]
  rw [zipWith_zero_add _ 40 (by simp)]
  rw [finalizeChannel_c2]

/-- C2 amended: the per-channel normalization divides by the *signed*
maximum `np.max(data[channel])` — no absolute value, no zero guard.  When
that maximum is positive, the returned channel attains 1 and every returned
sample is ≤ 1; but samples may lie below −1, so the peak absolute value
need not be 1. -/
theorem peak_norm_amended (acc : List ℝ) (h : 0 < npMax acc) :
    some 1 ∈ finalizeChannel acc
    ∧ ∀ r : ℝ, some r ∈ finalizeChannel acc → r ≤ 1 := by
  have hacc : acc.max? = some (npMax acc) := by
    unfold npMax at *
    cases hm : acc.max? with
    | none => rw [hm] at h; norm_num at h
    | some m => simp
  haveI : Std.Antisymm (fun x1 x2 : ℝ => x1 ≤ x2) :=
    ⟨fun h1 h2 => le_antisymm h1 h2⟩
  obtain ⟨hmem, hub⟩ := (List.max?_eq_some_iff le_refl max_choice
    (fun _ _ _ => max_le_iff)).mp hacc
  constructor
  · unfold finalizeChannel
    refine List.mem_map.mpr ⟨npMax acc, hmem, ?_⟩
    unfold fdiv
    rw [if_neg (ne_of_gt h), div_self (ne_of_gt h)]
  · intro r hr
    unfold finalizeChannel at hr
    obtain ⟨x, hx, hfx⟩ := List.mem_map.mp hr
    unfold fdiv at hfx
    rw [if_neg (ne_of_gt h)] at hfx
    obtain rfl : r = x / npMax acc := (Option.some_inj.mp hfx).symm
    exact (div_le_one h).mpr (hub x hx)

/-- Witness: on the accumulated buffer `[2, -1]` the signed maximum is
positive and the normalized channel attains 1 with all samples ≤ 1. -/
theorem peak_norm_amended_witness :
    0 < npMax [2, -1]
    ∧ (some 1 ∈ finalizeChannel [2, -1]
      ∧ ∀ r : ℝ, some r ∈ finalizeChannel [2, -1] → r ≤ 1) := by
  have hm : npMax [(2:ℝ), -1] = 2 := by
    unfold npMax
    rw [show List.max? [(2:ℝ), -1] = some (List.foldl max 2 [-1]) from rfl]
    simp only [List.foldl_cons, List.foldl_nil, Option.getD_some]
    rw [max_eq_left (by norm_num)]
  exact ⟨by rw [hm]; norm_num, peak_norm_amended [2, -1] (by rw [hm]; norm_num)⟩

/-- C2 as stated fails on the code: a full `Scene.Trace` run (one source
with stored signal `[1, -2]`, one receiver, 1×1 grid, 40 samples) returns
the channel `[1, -2, 0, …]` — the sample −2 has absolute value 2, so the
channel is *not* the buffer divided by its peak absolute value and its
maximum absolute value is not 1. -/
theorem peak_norm_counterexample :
    sceneTrace 1 sceneC2 1 1 1 160
      = some [some 1 :: some (-2) :: List.replicate 38 (some 0)]
    ∧ some (-2) ∈ (some 1 :: some (-2) :: List.replicate 38 (some (0:ℝ)))
    ∧ ¬ |(-2 : ℝ)| ≤ 1 :=
  ⟨sceneTrace_c2, by simp, by norm_num⟩

/-- The §8 test-4 source: 60 m away on the y-axis (beyond
`MAX_PATH_LEN = 50`), 8 Hz impulse. -/
noncomputable def srcC3 : Src := ⟨⟨0, 60, 0⟩, 8, [1]⟩

/-- Triangle-free scene whose accumulated channel is identically zero. -/
noncomputable def sceneC3 : SceneT := ⟨[srcC3], [], [recvO], 8⟩

theorem srcIntersect_c3 :
    srcIntersect srcC3 rayUp = (false, 0, nullV3) := by
  unfold srcIntersect
  simp only [srcC3, rayUp, srcRadius, V3.dot, V3.sub_x, V3.sub_y, V3.sub_z]
  norm_num

theorem directContribution_c3 (ns : ℕ) (buf : List ℝ) :
    directContribution srcC3 rayUp ns buf = some buf := by
  unfold directContribution
  rw [srcIntersect_c3]
  rw [if_neg (by norm_num)]

theorem rayTrace_c3 (n : ℕ) :
    rayTrace sceneC3 n rayUp 40 (List.replicate 40 0) 1
      = some (List.replicate 40 0) := by
  unfold rayTrace
  simp only [sceneC3, directStep, List.foldlM, directContribution_c3,
    findNearest_nil, Option.pure_def, Option.bind_eq_bind, Option.some_bind,
    if_true]

theorem finalizeChannel_zero :
    finalizeChannel (List.replicate 40 0)
      = List.replicate 40 (none : Option ℝ) := by
  have hmax : npMax (List.replicate 40 0) = 0 := by
    unfold npMax
    rw [show List.replicate 40 (0:ℝ) = 0 :: List.replicate 39 0 from rfl,
      show List.max? ((0:ℝ) :: List.replicate 39 0)
        = some (List.foldl max 0 (List.replicate 39 0)) from rfl,
      foldl_max_const _ _ _ le_rfl]
    rfl
  unfold finalizeChannel
  rw [hmax]
  simp [List.map_replicate, fdiv]

theorem sceneTrace_c3 :
    sceneTrace 1 sceneC3 1 1 5 160 = some [List.replicate 40 none] := by
  unfold sceneTrace
  simp only [directionsGrid_one, show sceneC3.sampRate = 8 from rfl,
    show sceneC3.receivers = [recvO] from rfl, List.length_cons,
    List.length_nil]
  simp only [show (0+1 : ℕ) = 1 from rfl, show (8*5 : ℕ) = 40 from rfl,
    show numChunksOf 1 40 160 = 2 from by decide,
    show chunkSizeOf 1 2 = 1 from by decide,
    show dispatchedIndices 1 2 1 = [0] from by decide]
  rw [if_neg (by norm_num)]
  simp only [List.mapM_cons, List.mapM_nil, List.foldlM_cons, List.foldlM_nil]
  unfold traceDirection
  simp only [show ([(⟨0,0,1⟩ : V3)] : List V3).get! 0 = (⟨0,0,1⟩ : V3) from rfl,
    show recvO.location = (⟨0,0,0⟩ : V3) from rfl, mkRay_up, rayTrace_c3 1,
    Option.pure_def, Option.bind_eq_bind, Option.some_bind]
  rw [zipWith_zero_add _ 40 (by simp)]
  rw [finalizeChannel_zero]

/-- C3: the claim is right about the intent but the code has *no* guard —
`data[channel] /= np.max(data[channel])` divides the all-zero channel by
0.0, producing NaN (modelled `none`) in every sample, not an all-zero
channel.  The concrete §8 test-4 scene (source at 60 m, no triangles)
returns an all-NaN channel. -/
theorem zero_guard_missing :
    sceneTrace 1 sceneC3 1 1 5 160 = some [List.replicate 40 none]
    ∧ List.replicate 40 (none : Option ℝ) ≠ List.replicate 40 (some 0) := by
  refine ⟨sceneTrace_c3, ?_⟩
  intro h
  have := congrArg (fun l => l.getD 0 (some 0)) h
  simp at this

end ARTRS
